import Mathlib

/-!
# Service discovery client (package `meta`): watcher and one-shot dial

A shallow embedding of `discovery.go` (`metaResolver.Resolve`, `metaWatcher.Next`,
`metaWatcher.next`, `metaWatcher.Close`) and of `dial.go` (`dialRaw`).

Everything outside the package is an explicit input:

* the discovery daemon together with the HTTP client is a function from the history of
  requested URLs to the outcome of `discoveryClient.Get`;
* the order in which a `range` statement visits the keys of a map is an oracle that
  returns some permutation of the keys;
* `url.QueryEscape`, `net.SplitHostPort`, `rand.Intn` and `net.Dial` are fields of `Env`;
* a response body is given by its bytes and by the JSON value `encoding/json` reads
  from it (the tokeniser is not modelled, the decoding into Go values is);
* `time.Sleep` appends the duration to a log; `log.Printf` is dropped.
-/

namespace Meta

/-! ## Values from the Go standard library -/

/-- JSON values as read by `encoding/json`. Numbers keep their literal text. -/
inductive Json where
  | null : Json
  | bool (b : Bool) : Json
  | num (literal : String) : Json
  | str (s : String) : Json
  | arr (items : List Json) : Json
  | obj (members : List (String × Json)) : Json

/-- Body of an HTTP response: `content` is what `ioutil.ReadAll` returns, `json` is the
outcome of reading the first JSON value from the stream (an error text when the bytes
are malformed or the read fails). -/
structure Body where
  content : String
  json : Except String Json

/-- The type `http.Header`: canonical header names with their values. -/
abbrev Header := List (String × List String)

/-- Method `Header.Get`: the first value stored under `key`, or `""` when there is none. -/
def Header.Get (h : Header) (key : String) : String :=
  match h.lookup key with
  | some (v :: _) => v
  | _ => ""

/-- The type `http.Response`, restricted to the fields the package reads. -/
structure Response where
  StatusCode : Int
  Status : String
  Header : Header
  Body : Body

/-- Constant `http.StatusOK`. -/
def StatusOK : Int := 200

/-- Largest `uint64`. -/
def maxUint64 : Nat := 18446744073709551615

/-- Outcome of `strconv.ParseUint`: the pair (value, error), the error being
`ErrSyntax`, `ErrRange` or nil. -/
inductive NumError where
  | errSyn : NumError
  | errRange : NumError
deriving DecidableEq, Repr

/-- Loop of `strconv.ParseUint(s, 10, 64)` over the remaining characters, `n` being the
value accumulated so far. As in the Go loop, each character is handled in this order:
a character that is not a digit of base 10 returns `(0, ErrSyntax)`; then `n >= cutoff`
(with `cutoff = maxUint64/10 + 1`) returns `(maxUint64, ErrRange)`; then `n *= 10` and
`n1 := n + d`, and `n1 < n || n1 > maxVal` returns `(maxUint64, ErrRange)`. The first
return wins, so characters after an overflow are never looked at. Characters stand for
the bytes of the string: a letter is a digit value of 10 or more, any other byte
(every byte of a non-ASCII character included) falls in the `default` case, and both
return `ErrSyntax`. Arithmetic is on `uint64`, hence modulo `2^64`. -/
def parseUintLoop : List Char → Nat → Nat × Option NumError
  | [], n => (n, none)
  | c :: cs, n =>
    if '0'.toNat ≤ c.toNat ∧ c.toNat ≤ '9'.toNat then
      let d := c.toNat - '0'.toNat
      if n ≥ maxUint64 / 10 + 1 then (maxUint64, some .errRange)
      else
        let n10 := (n * 10) % 2 ^ 64
        let n1 := (n10 + d) % 2 ^ 64
        if n1 < n10 ∨ n1 > maxUint64 then (maxUint64, some .errRange)
        else parseUintLoop cs n1
    else (0, some .errSyn)

/-- Function `strconv.ParseUint(s, 10, 64)`. -/
def ParseUint (s : String) : Nat × Option NumError :=
  if s = "" then (0, some .errSyn) else parseUintLoop s.data 0

/-! ## Go maps and their decoding -/

/-- A non-nil `map[string]struct{}`: its keys, each once. The order of `keys` carries no
meaning; iteration goes through an order oracle. -/
structure AddrMap where
  keys : List String
  nodup : keys.Nodup
deriving DecidableEq

/-- A value of type `map[string]struct{}`: `none` is the nil map. -/
abbrev GoMap := Option AddrMap

/-- Expression `make(map[string]struct{})`. -/
def makeMap : GoMap := some ⟨[], List.nodup_nil⟩

/-- Keys stored in a map; a nil map has none. -/
def GoMap.keys (m : GoMap) : List String :=
  match m with
  | none => []
  | some a => a.keys

/-- Lookup `_, exists := m[addr]`; on a nil map nothing exists. -/
def GoMap.exists (m : GoMap) (addr : String) : Bool :=
  decide (addr ∈ GoMap.keys m)

/-- Decoding of a JSON value into a `struct{}`: an object (its members are all unknown
fields and skipped) and `null` are accepted, anything else is an `UnmarshalTypeError`. -/
def decodeEmptyStruct : Json → Bool
  | .null => true
  | .obj _ => true
  | _ => false

/-- Decoding `json.NewDecoder(body).Decode(&addrs)` with `addrs` a nil
`map[string]struct{}`: `null` leaves the map nil, an object gives a fresh map holding
every member name once, and a value of the wrong kind (at top level or as a member
value) makes `Decode` return an error. -/
def decodeAddrs (b : Body) : Except String GoMap :=
  match b.json with
  | .error e => .error e
  | .ok .null => .ok none
  | .ok (.obj members) =>
    if members.all (fun kv => decodeEmptyStruct kv.2) then
      .ok (some ⟨(members.map Prod.fst).dedup, List.nodup_dedup _⟩)
    else
      .error "json: cannot unmarshal value into Go value of type struct \x7b\x7d"
  | .ok _ => .error "json: cannot unmarshal value into Go value of type map[string]struct \x7b\x7d"

/-- Decoding `json.NewDecoder(body).Decode(&entries)` with `entries` a nil `[]string`:
`null` leaves the slice nil, an array gives its strings (a `null` item leaves the zero
value `""`), and a value of the wrong kind makes `Decode` return an error. -/
def decodeEntries (b : Body) : Except String (List String) :=
  match b.json with
  | .error e => .error e
  | .ok .null => .ok []
  | .ok (.arr items) =>
    if items.all (fun j => match j with | .str _ => true | .null => true | _ => false) then
      .ok (items.map (fun j => match j with | .str s => s | _ => ""))
    else
      .error "json: cannot unmarshal value into Go value of type string"
  | .ok _ => .error "json: cannot unmarshal value into Go value of type []string"

/-! ## Environment and observable effects -/

/-- A connection returned by `net.Dial`. -/
structure Conn where
  network : String
  remote : String
deriving DecidableEq, Repr

/-- Everything the package calls but does not define. `Get` is the discovery daemon seen
through `discoveryClient.Get`: it answers the last URL of a request history. `order k`
is the order in which the `k`-th `range` over a map visits the keys. `Intn k n` is the
value of the `k`-th call `rand.Intn(n)`. `Dial` answers the last (network, address) of
a history of `net.Dial` calls. -/
structure Env where
  Get : List String → Except String Response
  order : Nat → List String → List String
  order_perm : ∀ k l, (order k l).Perm l
  QueryEscape : String → String
  SplitHostPort : String → Except String (String × String)
  Intn : Nat → Nat → Nat
  Intn_lt : ∀ k n, 0 < n → Intn k n < n
  Dial : List (String × String) → Except String Conn

/-- Effects performed so far: URLs requested (oldest first), durations slept in
nanoseconds, number of map iterations, number of random draws, `net.Dial` calls and
number of executed `close` statements. -/
structure World where
  requests : List String
  slept : List Int
  ranges : Nat
  draws : Nat
  dials : List (String × String)
  closes : Nat
deriving DecidableEq, Repr

/-- The world before anything happened. -/
def World.init : World := ⟨[], [], 0, 0, [], 0⟩

/-- Call `discoveryClient.Get(url)`. -/
def World.Get (env : Env) (world : World) (url : String) : Except String Response × World :=
  let reqs := world.requests ++ [url]
  (env.Get reqs, { world with requests := reqs })

/-- Statement `for addr := range m`: the keys in the order chosen for this iteration. -/
def World.range (env : Env) (world : World) (m : GoMap) : List String × World :=
  (env.order world.ranges (GoMap.keys m), { world with ranges := world.ranges + 1 })

/-- Call `time.Sleep(d)`. -/
def World.Sleep (world : World) (d : Int) : World :=
  { world with slept := world.slept ++ [d] }

/-- Two's-complement value of the low 64 bits of an integer (a Go `int64`). -/
def toInt64 (z : Int) : Int := (z + 2 ^ 63) % 2 ^ 64 - 2 ^ 63

/-- Constant `time.Second`, in nanoseconds. -/
def Second : Int := 1000000000

/-- Expression `d << k` on a `time.Duration`. -/
def shiftLeft (d : Int) (k : Nat) : Int := toInt64 (d * 2 ^ k)

/-! ## `discovery.go` -/

/-- The type `naming.Operation`. -/
inductive Operation where
  | Add : Operation
  | Delete : Operation
deriving DecidableEq, Repr

/-- The type `naming.Update`; its `Metadata` field is never set by this package. -/
structure Update where
  Op : Operation
  Addr : String
deriving DecidableEq, Repr

/-- Value of a `chan struct{}` variable together with the state of the channel it refers
to; nothing is ever sent on `cancelCh`. -/
inductive Chan where
  | nil : Chan
  | opened : Chan
  | closed : Chan
deriving DecidableEq, Repr

/-- The struct `metaWatcher`; `cancelMu` serialises `Close` and holds no data. -/
structure metaWatcher where
  service : String
  index : Nat
  addrs : GoMap
  cancelCh : Chan
deriving DecidableEq

/-- Method `metaResolver.Resolve`: the error result is always nil. -/
def metaResolver.Resolve (service : String) : metaWatcher :=
  { service := service, index := 0, addrs := makeMap, cancelCh := .opened }

/-- Result pair `([]*naming.Update, error)`. -/
abbrev Updates := List Update × Option String

/-- First loop of `next`: a Delete for every visited key of the old map missing in `addrs`. -/
def deleteLoop (addrs : GoMap) (visited : List String) (updates : List Update) : List Update :=
  visited.foldl (fun ups addr => if ¬ GoMap.exists addrs addr then ups ++ [⟨.Delete, addr⟩] else ups)
    updates

/-- Second loop of `next`: an Add for every visited key of `addrs` missing in the old map. -/
def addLoop (old : GoMap) (visited : List String) (updates : List Update) : List Update :=
  visited.foldl (fun ups addr => if ¬ GoMap.exists old addr then ups ++ [⟨.Add, addr⟩] else ups)
    updates

/-- The URL polled by `next`:
`fmt.Sprintf("http://meta/v1/services/%s?index=%d", url.QueryEscape(w.service), w.index)`. -/
def pollURL (env : Env) (w : metaWatcher) : String :=
  "http://meta/v1/services/" ++ env.QueryEscape w.service ++ "?index=" ++ toString w.index

/-- Method `metaWatcher.next`: one poll of the daemon. -/
def metaWatcher.next (env : Env) (w : metaWatcher) (world : World) :
    Updates × metaWatcher × World :=
  let (got, world) := world.Get env (pollURL env w)
  let got : Except String Response :=
    match got with
    | .ok resp =>
      if resp.StatusCode ≠ StatusOK then .error (resp.Status ++ ": " ++ resp.Body.content)
      else .ok resp
    | .error e => .error e
  match got with
  | .error e => (([], some ("lib/service: discovery error: " ++ e)), w, world)
  | .ok resp =>
    match decodeAddrs resp.Body with
    | .error e => (([], some ("lib/service: couldn't decode discovery response: " ++ e)), w, world)
    | .ok addrs =>
      let (oldKeys, world) := world.range env w.addrs
      let updates := deleteLoop addrs oldKeys []
      let (newKeys, world) := world.range env addrs
      let updates := addLoop w.addrs newKeys updates
      ((updates, none),
        { w with addrs := addrs, index := (ParseUint (resp.Header.Get "X-Index")).1 }, world)

/-- The `retry:` loop of `Next`, entered with the current `retryCount`. -/
def metaWatcher.retry (env : Env) (w : metaWatcher) (world : World) (retryCount : Nat) :
    Updates × metaWatcher × World :=
  let r := w.next env world
  if r.1.2 ≠ none ∧ retryCount < 6 then
    metaWatcher.retry env r.2.1 (r.2.2.Sleep (shiftLeft Second retryCount)) (retryCount + 1)
  else r
termination_by 6 - retryCount

/-- Method `metaWatcher.Next`. -/
def metaWatcher.Next (env : Env) (w : metaWatcher) (world : World) :
    Updates × metaWatcher × World :=
  if w.addrs = none then
    w.next env world
  else
    w.retry env world 0

/-- Result of a call that may panic. -/
inductive Outcome (α : Type) where
  | panic (msg : String) : Outcome α
  | ret (a : α) : Outcome α

/-- Calling `Next` `n` times in a row, results dropped. -/
def nextTimes (env : Env) : Nat → metaWatcher → World → metaWatcher × World
  | 0, w, world => (w, world)
  | n + 1, w, world =>
    let r := w.Next env world
    nextTimes env n r.2.1 r.2.2

/-! ## `dial.go` -/

/-- Function `dialRaw`. -/
def dialRaw (env : Env) (world : World) (network address : String) :
    Outcome (Except String Conn) × World :=
  match env.SplitHostPort address with
  | .error e => (.ret (.error e), world)
  | .ok (service, _) =>
    let (got, world) := world.Get env ("http://meta/v1/services/" ++ service)
    let got : Except String Response :=
      match got with
      | .ok resp => if resp.StatusCode ≠ StatusOK then .error resp.Status else .ok resp
      | .error e => .error e
    let decoded : Except String (List String) :=
      match got with
      | .ok resp => decodeEntries resp.Body
      | .error e => .error e
    match decoded with
    | .error e => (.ret (.error ("couldn't dial service " ++ service ++ ": " ++ e)), world)
    | .ok entries =>
      if entries.length = 0 then
        (.ret (.error ("couldn't dial service " ++ service ++ ": no healthy instances")), world)
      else
        let i := env.Intn world.draws entries.length
        let world := { world with draws := world.draws + 1 }
        match entries.get? i with
        | none => (.panic "index out of range", world)
        | some entry =>
          let calls := world.dials ++ [(network, entry)]
          (.ret (env.Dial calls), { world with dials := calls })

/-! ## Vocabulary of the specification -/

/-- A poll attempt fails, in the specification's words: transport error, non-200 status,
or body decode error. -/
def pollFails (got : Except String Response) : Bool :=
  match got with
  | .error _ => true
  | .ok resp =>
    if resp.StatusCode ≠ StatusOK then true
    else
      match decodeAddrs resp.Body with
      | .error _ => true
      | .ok _ => false

/-- A character is one of the decimal digits `0` to `9`. -/
def isDigit (c : Char) : Bool :=
  decide ('0'.toNat ≤ c.toNat ∧ c.toNat ≤ '9'.toNat)

/-- The number written by a run of decimal digits, continuing from `acc`. -/
def decimalFrom (acc : Nat) (cs : List Char) : Nat :=
  cs.foldl (fun a c => a * 10 + (c.toNat - '0'.toNat)) acc

/-- The number written by a string of decimal digits. -/
def decimalValue (s : String) : Nat := decimalFrom 0 s.data

/-- A string is a syntactically valid decimal unsigned integer: one or more digits. -/
def isDecimal (s : String) : Bool :=
  !s.data.isEmpty && s.data.all isDigit

/-- The world at the moment attempt number `k` (counted from 0) of one `Next` call starts,
all earlier attempts having failed: each failed attempt `i` requested the poll URL and
was followed by a sleep of `time.Second << i`. -/
def afterFailures (env : Env) (w : metaWatcher) (world : World) : Nat → World
  | 0 => world
  | k + 1 =>
    let before := afterFailures env w world k
    World.Sleep { before with requests := before.requests ++ [pollURL env w] }
      (shiftLeft Second k)

/-- A poll answer is a 200 response whose body is the JSON value `null`. -/
def answersNull (got : Except String Response) : Bool :=
  match got with
  | .ok resp =>
    decide (resp.StatusCode = StatusOK) &&
      (match resp.Body.json with
       | .ok .null => true
       | _ => false)
  | .error _ => false

/-- The digits a string starts with, up to its first character that is not a digit. -/
def leadingDigits (s : String) : List Char := s.data.takeWhile isDigit

/-- An environment for examples: the daemon answers the `i`-th request with the `i`-th
entry of `script` and refuses the connection once the script is used up; maps are
visited odd times in reverse of the stored order; hosts are split at the first colon;
the random draw is always 0 and every dial succeeds. -/
def scriptedEnv (script : List (Except String Response)) : Env where
  Get := fun hist => script.getD (hist.length - 1) (.error "connection refused")
  order := fun k l => if k % 2 = 1 then l.reverse else l
  order_perm := fun k l => by
    by_cases h : k % 2 = 1
    · simp only [h, if_true]; exact List.reverse_perm l
    · simp only [h, if_false]; exact List.Perm.refl l
  QueryEscape := fun s => s
  SplitHostPort := fun address =>
    .ok (⟨address.data.takeWhile (fun c => c ≠ ':')⟩,
      ⟨(address.data.dropWhile (fun c => c ≠ ':')).drop 1⟩)
  Intn := fun _ _ => 0
  Intn_lt := fun _ _ h => h
  Dial := fun calls =>
    match calls.getLast? with
    | some (network, address) => .ok ⟨network, address⟩
    | none => .error "dial: no call"

/-- A 200 response carrying the version header `x` and a body that reads as `j`. -/
def okResponse (x : String) (content : String) (j : Json) : Response :=
  ⟨200, "200 OK", [("X-Index", [x])], ⟨content, .ok j⟩⟩

/-- A response with the given status whose body is plain text, not JSON. -/
def plainResponse (code : Int) (status content : String) : Response :=
  ⟨code, status, [], ⟨content, .error "invalid character"⟩⟩

/-- A watcher that already holds two addresses at index 5. -/
def sampleWatcher : metaWatcher :=
  { service := "svc", index := 5, addrs := some ⟨["a:1", "b:2"], by decide⟩, cancelCh := .opened }

/-- A poll answer: status 200, version 6, addresses `b:2` (twice) and `c:3`. -/
def sampleResponse : Response :=
  okResponse "6" "" (.obj [("b:2", .obj []), ("c:3", .null), ("b:2", .obj [])])

/-- The map decoded from `sampleResponse`. -/
def sampleNew : GoMap := some ⟨["c:3", "b:2"], by decide⟩

/-- A poll answer whose version header is a long run of digits followed by a letter. -/
def overflowResponse : Response :=
  okResponse "99999999999999999999x" "" (.obj [])

/-- A poll answer whose version header is not a number. -/
def badIndexResponse : Response :=
  okResponse "12a" "" (.obj [("c:3", .obj [])])

/-- A daemon that fails three times (transport error, status 503, malformed body) and
then answers with `sampleResponse`. -/
def flakyScript : List (Except String Response) :=
  [.error "dial unix /run/meta.sock: connect: no such file or directory",
   .ok (plainResponse 503 "503 Service Unavailable" "busy"),
   .ok (plainResponse 200 "200 OK" "<html>"),
   .ok sampleResponse]

/-- A daemon that answers the one-shot request with status 503 and a body. -/
def unavailableScript : List (Except String Response) :=
  [.ok (plainResponse 503 "503 Service Unavailable" "upstream overloaded")]

/-- A one-shot answer listing three addresses. -/
def entriesResponse : Response :=
  okResponse "" "" (.arr [.str "a:1", .str "b:2", .str "c:3"])

/-- A one-shot answer listing no address. -/
def emptyResponse : Response := okResponse "" "[]" (.arr [])

/-- A daemon that answers `null` with status 200, then drops one connection, then answers
with `sampleResponse`. -/
def recoveringScript : List (Except String Response) :=
  [.ok (okResponse "1" "null" .null), .error "connection reset by peer", .ok sampleResponse]

/-- The watcher made by `Resolve "svc"` after its first `Next` against `recoveringScript`:
the address map is nil. -/
def nilWatcher : metaWatcher :=
  { service := "svc", index := 1, addrs := none, cancelCh := .opened }

/-- The world after that first `Next`. -/
def nilWorld : World :=
  { requests := ["http://meta/v1/services/svc?index=0"],
    slept := [], ranges := 2, draws := 0, dials := [], closes := 0 }

/-- A 200 poll answer whose body is `null`. -/
def nullResponse : Response := okResponse "1" "null" .null

/-! ## One poll: `metaWatcher.next` -/

theorem deleteLoop_eq (addrs : GoMap) (visited : List String) (updates : List Update) :
    deleteLoop addrs visited updates =
      updates ++ (visited.filter (fun a => !GoMap.exists addrs a)).map (Update.mk .Delete) := by
  unfold deleteLoop
  induction visited generalizing updates with
  | nil => simp
  | cons a rest ih =>
    rw [List.foldl_cons, ih]
    by_cases h : GoMap.exists addrs a = true <;> simp [h, List.filter_cons]

theorem addLoop_eq (old : GoMap) (visited : List String) (updates : List Update) :
    addLoop old visited updates =
      updates ++ (visited.filter (fun a => !GoMap.exists old a)).map (Update.mk .Add) := by
  unfold addLoop
  induction visited generalizing updates with
  | nil => simp
  | cons a rest ih =>
    rw [List.foldl_cons, ih]
    by_cases h : GoMap.exists old a = true <;> simp [h, List.filter_cons]

/-- The update list `next` builds from the old map, the new map and the two visiting orders. -/
theorem diff_eq (old new : GoMap) (v₁ v₂ : List String) :
    addLoop old v₂ (deleteLoop new v₁ []) =
      (v₁.filter (fun a => !GoMap.exists new a)).map (Update.mk .Delete) ++
        (v₂.filter (fun a => !GoMap.exists old a)).map (Update.mk .Add) := by
  rw [addLoop_eq, deleteLoop_eq, List.nil_append]

theorem pollFails_false_iff (got : Except String Response) :
    pollFails got = false ↔
      ∃ resp new, got = .ok resp ∧ resp.StatusCode = StatusOK ∧ decodeAddrs resp.Body = .ok new := by
  unfold pollFails
  cases got with
  | error e => simp
  | ok resp =>
    by_cases hs : resp.StatusCode = StatusOK
    · cases hd : decodeAddrs resp.Body with
      | error e => simp [hs, hd]
      | ok new => simp [hs, hd]
    · simp [hs]

/-- A successful poll: the result of `next` written out. -/
theorem next_success (env : Env) (w : metaWatcher) (world : World) (resp : Response) (new : GoMap)
    (hget : env.Get (world.requests ++ [pollURL env w]) = .ok resp)
    (hstatus : resp.StatusCode = StatusOK)
    (hdec : decodeAddrs resp.Body = .ok new) :
    w.next env world =
      ((addLoop w.addrs (env.order (world.ranges + 1) (GoMap.keys new))
          (deleteLoop new (env.order world.ranges (GoMap.keys w.addrs)) []), none),
        { w with addrs := new, index := (ParseUint (resp.Header.Get "X-Index")).1 },
        { world with requests := world.requests ++ [pollURL env w], ranges := world.ranges + 2 }) := by
  simp [metaWatcher.next, World.Get, World.range, hget, hstatus, hdec]

/-- A failed poll: `next` returns no updates and an error, and touches only the request log. -/
theorem next_failure (env : Env) (w : metaWatcher) (world : World)
    (hfail : pollFails (env.Get (world.requests ++ [pollURL env w])) = true) :
    ∃ e, w.next env world =
      (([], some e), w, { world with requests := world.requests ++ [pollURL env w] }) := by
  unfold pollFails at hfail
  cases hget : env.Get (world.requests ++ [pollURL env w]) with
  | error e =>
    exact ⟨"lib/service: discovery error: " ++ e, by simp [metaWatcher.next, World.Get, hget]⟩
  | ok resp =>
    rw [hget] at hfail
    by_cases hs : resp.StatusCode = StatusOK
    · cases hd : decodeAddrs resp.Body with
      | error e =>
        exact ⟨"lib/service: couldn't decode discovery response: " ++ e,
          by simp [metaWatcher.next, World.Get, hget, hs, hd]⟩
      | ok new => simp [hs, hd] at hfail
    · exact ⟨"lib/service: discovery error: " ++ (resp.Status ++ ": " ++ resp.Body.content),
        by simp [metaWatcher.next, World.Get, hget, hs]⟩

theorem keys_nodup (m : GoMap) : (GoMap.keys m).Nodup := by
  cases m with
  | none => exact List.nodup_nil
  | some a => exact a.nodup

theorem exists_eq_true_iff (m : GoMap) (a : String) :
    GoMap.exists m a = true ↔ a ∈ GoMap.keys m := by
  simp [GoMap.exists]

theorem exists_eq_false_iff (m : GoMap) (a : String) :
    GoMap.exists m a = false ↔ a ∉ GoMap.keys m := by
  simp [GoMap.exists]

theorem mk_injective (op : Operation) : Function.Injective (Update.mk op) := by
  intro a b h
  injection h

/-- Occurrences of the update `(op, a)` among the updates made with `op` from the visited
keys that pass the test `p`. -/
theorem count_same_op (op : Operation) (v keys : List String) (hperm : v.Perm keys)
    (hnd : keys.Nodup) (p : String → Bool) (a : String) :
    ((v.filter p).map (Update.mk op)).count ⟨op, a⟩ = if a ∈ keys ∧ p a = true then 1 else 0 := by
  rw [List.count_map_of_injective _ _ (mk_injective op)]
  have hv : v.Nodup := hperm.nodup_iff.mpr hnd
  rw [List.count_eq_of_nodup (hv.filter _)]
  simp only [List.mem_filter, hperm.mem_iff]

theorem count_other_op (op op' : Operation) (hne : op ≠ op') (l : List String) (a : String) :
    (l.map (Update.mk op)).count ⟨op', a⟩ = 0 := by
  rw [List.count_eq_zero]
  intro hmem
  rw [List.mem_map] at hmem
  obtain ⟨b, _, hb⟩ := hmem
  injection hb with h1 _
  exact hne h1

/-- Claim C1: on a successful poll (status 200, body decoding to the map `new`) the update
list returned by `next` holds exactly one Delete for each address of the old map that is
missing in `new`, exactly one Add for each address of `new` missing in the old map, and
nothing else: every other update occurs zero times, no address occurs twice, an address
in both maps does not occur, and when both maps hold the same addresses the list is empty. -/
theorem next_updates_are_symmetric_difference (env : Env) (w : metaWatcher) (world : World)
    (resp : Response) (new : GoMap)
    (hget : env.Get (world.requests ++ [pollURL env w]) = .ok resp)
    (hstatus : resp.StatusCode = StatusOK)
    (hdec : decodeAddrs resp.Body = .ok new) :
    (w.next env world).1.2 = none ∧
    (∀ a, (w.next env world).1.1.count ⟨.Delete, a⟩ =
      if a ∈ GoMap.keys w.addrs ∧ a ∉ GoMap.keys new then 1 else 0) ∧
    (∀ a, (w.next env world).1.1.count ⟨.Add, a⟩ =
      if a ∈ GoMap.keys new ∧ a ∉ GoMap.keys w.addrs then 1 else 0) ∧
    ((w.next env world).1.1.map Update.Addr).Nodup ∧
    (∀ u ∈ (w.next env world).1.1,
      ¬ (u.Addr ∈ GoMap.keys w.addrs ∧ u.Addr ∈ GoMap.keys new)) ∧
    ((∀ a, a ∈ GoMap.keys w.addrs ↔ a ∈ GoMap.keys new) → (w.next env world).1.1 = []) := by
  rw [next_success env w world resp new hget hstatus hdec]
  simp only [diff_eq]
  have hp₁ := env.order_perm world.ranges (GoMap.keys w.addrs)
  have hp₂ := env.order_perm (world.ranges + 1) (GoMap.keys new)
  have hn₁ := keys_nodup w.addrs
  have hn₂ := keys_nodup new
  refine ⟨trivial, ?_, ?_, ?_, ?_, ?_⟩
  · intro a
    rw [List.count_append, count_same_op _ _ _ hp₁ hn₁,
      count_other_op .Add .Delete (by decide), Nat.add_zero]
    simp [exists_eq_false_iff]
  · intro a
    rw [List.count_append, count_other_op .Delete .Add (by decide),
      count_same_op _ _ _ hp₂ hn₂, Nat.zero_add]
    simp [exists_eq_false_iff]
  · rw [List.map_append, List.map_map, List.map_map]
    have hid : (Update.Addr ∘ Update.mk Operation.Delete) = id := rfl
    have hid' : (Update.Addr ∘ Update.mk Operation.Add) = id := rfl
    rw [hid, hid', List.map_id, List.map_id, List.nodup_append]
    refine ⟨(hp₁.nodup_iff.mpr hn₁).filter _, (hp₂.nodup_iff.mpr hn₂).filter _, ?_⟩
    intro a h₁ h₂
    rw [List.mem_filter, hp₁.mem_iff] at h₁
    rw [List.mem_filter, hp₂.mem_iff] at h₂
    have := h₁.2
    simp [exists_eq_false_iff] at this
    exact this h₂.1
  · intro u hu
    rw [List.mem_append, List.mem_map, List.mem_map] at hu
    rcases hu with ⟨a, ha, rfl⟩ | ⟨a, ha, rfl⟩
    · rw [List.mem_filter] at ha
      have := ha.2
      simp [exists_eq_false_iff] at this
      exact fun h => this h.2
    · rw [List.mem_filter] at ha
      have := ha.2
      simp [exists_eq_false_iff] at this
      exact fun h => this h.1
  · intro hsame
    have h₁ : (env.order world.ranges (GoMap.keys w.addrs)).filter
        (fun a => !GoMap.exists new a) = [] := by
      rw [List.filter_eq_nil_iff]
      intro a ha
      rw [hp₁.mem_iff] at ha
      simp [exists_eq_true_iff, (hsame a).mp ha]
    have h₂ : (env.order (world.ranges + 1) (GoMap.keys new)).filter
        (fun a => !GoMap.exists w.addrs a) = [] := by
      rw [List.filter_eq_nil_iff]
      intro a ha
      rw [hp₂.mem_iff] at ha
      simp [exists_eq_true_iff, (hsame a).mpr ha]
    rw [h₁, h₂]
    rfl

theorem next_updates_are_symmetric_difference_witness :
    (scriptedEnv [.ok sampleResponse]).Get
        (World.init.requests ++ [pollURL (scriptedEnv [.ok sampleResponse]) sampleWatcher]) =
      .ok sampleResponse ∧
    sampleResponse.StatusCode = StatusOK ∧
    decodeAddrs sampleResponse.Body = .ok sampleNew ∧
    (sampleWatcher.next (scriptedEnv [.ok sampleResponse]) World.init).1.1.count ⟨.Delete, "a:1"⟩ = 1 ∧
    (sampleWatcher.next (scriptedEnv [.ok sampleResponse]) World.init).1.1.count ⟨.Add, "c:3"⟩ = 1 ∧
    (sampleWatcher.next (scriptedEnv [.ok sampleResponse]) World.init).1.1.count ⟨.Add, "b:2"⟩ = 0 :=
  have h := next_updates_are_symmetric_difference (scriptedEnv [.ok sampleResponse])
    sampleWatcher World.init sampleResponse sampleNew rfl rfl rfl
  ⟨rfl, rfl, rfl, (h.2.1 "a:1").trans (by decide), (h.2.2.1 "c:3").trans (by decide),
    (h.2.2.1 "b:2").trans (by decide)⟩

/-! ## The version header: `strconv.ParseUint` -/

theorem decimalFrom_cons (acc : Nat) (c : Char) (cs : List Char) :
    decimalFrom acc (c :: cs) = decimalFrom (acc * 10 + (c.toNat - '0'.toNat)) cs := rfl

theorem le_decimalFrom (cs : List Char) (acc : Nat) : acc ≤ decimalFrom acc cs := by
  induction cs generalizing acc with
  | nil => exact Nat.le_refl _
  | cons c cs ih =>
    rw [decimalFrom_cons]
    have := ih (acc * 10 + (c.toNat - '0'.toNat))
    omega

theorem isDigit_iff (c : Char) :
    isDigit c = true ↔ '0'.toNat ≤ c.toNat ∧ c.toNat ≤ '9'.toNat := by
  simp [isDigit]

/-- On a run of digits whose value fits in 64 bits the loop returns that value. -/
theorem parseUintLoop_digits (cs : List Char) (acc : Nat)
    (hd : ∀ c ∈ cs, isDigit c = true) (hlt : decimalFrom acc cs < 2 ^ 64) :
    parseUintLoop cs acc = (decimalFrom acc cs, none) := by
  induction cs generalizing acc with
  | nil => rfl
  | cons c cs ih =>
    have hc := (isDigit_iff c).mp (hd c (List.mem_cons_self c cs))
    rw [decimalFrom_cons] at hlt ⊢
    have hge := le_decimalFrom cs (acc * 10 + (c.toNat - '0'.toNat))
    have h9 : c.toNat - '0'.toNat ≤ 9 := by
      have : '9'.toNat = 57 := rfl
      have : '0'.toNat = 48 := rfl
      omega
    have hsmall : acc * 10 + (c.toNat - '0'.toNat) < 18446744073709551616 := by
      have : (2 : Nat) ^ 64 = 18446744073709551616 := by norm_num
      omega
    have h1 : ¬ (acc ≥ maxUint64 / 10 + 1) := by
      simp only [maxUint64]
      omega
    have h10 : (acc * 10) % 2 ^ 64 = acc * 10 := by
      apply Nat.mod_eq_of_lt
      have : (2 : Nat) ^ 64 = 18446744073709551616 := by norm_num
      omega
    have h11 : (acc * 10 + (c.toNat - '0'.toNat)) % 2 ^ 64 = acc * 10 + (c.toNat - '0'.toNat) := by
      apply Nat.mod_eq_of_lt
      have : (2 : Nat) ^ 64 = 18446744073709551616 := by norm_num
      omega
    have h2 : ¬ (acc * 10 + (c.toNat - '0'.toNat) < acc * 10 ∨
        acc * 10 + (c.toNat - '0'.toNat) > maxUint64) := by
      simp only [maxUint64]
      omega
    rw [parseUintLoop, if_pos hc]
    simp only [h10, h11, if_neg h1, if_neg h2]
    exact ih _ (fun x hx => hd x (List.mem_cons_of_mem c hx)) hlt

/-- A character that is not a digit, met while the value read so far fits in 64 bits, ends
the loop with value 0 and `ErrSyntax`. -/
theorem parseUintLoop_invalid (p : List Char) (c : Char) (rest : List Char) (acc : Nat)
    (hd : ∀ x ∈ p, isDigit x = true) (hc : isDigit c = false)
    (hlt : decimalFrom acc p < 2 ^ 64) :
    parseUintLoop (p ++ c :: rest) acc = (0, some .errSyn) := by
  induction p generalizing acc with
  | nil =>
    have hc' : ¬ ('0'.toNat ≤ c.toNat ∧ c.toNat ≤ '9'.toNat) := by
      intro h
      rw [(isDigit_iff c).mpr h] at hc
      exact Bool.noConfusion hc
    rw [List.nil_append, parseUintLoop, if_neg hc']
  | cons d p ih =>
    have hdd := (isDigit_iff d).mp (hd d (List.mem_cons_self d p))
    rw [decimalFrom_cons] at hlt
    have hge := le_decimalFrom p (acc * 10 + (d.toNat - '0'.toNat))
    have hpow : (2 : Nat) ^ 64 = 18446744073709551616 := by norm_num
    have h1 : ¬ (acc ≥ maxUint64 / 10 + 1) := by
      simp only [maxUint64]
      omega
    have h10 : (acc * 10) % 2 ^ 64 = acc * 10 := by
      apply Nat.mod_eq_of_lt
      omega
    have h11 : (acc * 10 + (d.toNat - '0'.toNat)) % 2 ^ 64 = acc * 10 + (d.toNat - '0'.toNat) := by
      apply Nat.mod_eq_of_lt
      omega
    have h2 : ¬ (acc * 10 + (d.toNat - '0'.toNat) < acc * 10 ∨
        acc * 10 + (d.toNat - '0'.toNat) > maxUint64) := by
      simp only [maxUint64]
      omega
    rw [List.cons_append, parseUintLoop, if_pos hdd]
    simp only [h10, h11, if_neg h1, if_neg h2]
    exact ih _ (fun x hx => hd x (List.mem_cons_of_mem d hx)) hlt

theorem ParseUint_empty : ParseUint "" = (0, some .errSyn) := rfl

/-- The call `ParseUint(s, 10, 64)` on a string of digits whose value fits in 64 bits
returns that value and no error. -/
theorem ParseUint_decimal (s : String) (hs : isDecimal s = true) (hlt : decimalValue s < 2 ^ 64) :
    ParseUint s = (decimalValue s, none) := by
  unfold isDecimal at hs
  simp only [Bool.and_eq_true, Bool.not_eq_true', List.isEmpty_eq_false, List.all_eq_true] at hs
  have hne : s ≠ "" := by
    intro h
    apply hs.1
    rw [h]
  rw [ParseUint, if_neg hne]
  exact parseUintLoop_digits s.data 0 hs.2 hlt

/-- The call `ParseUint(s, 10, 64)` returns 0 when `s` is empty or when the digits before
its first other character denote a value below `2^64`. -/
theorem ParseUint_invalid (p : List Char) (c : Char) (rest : List Char)
    (hd : ∀ x ∈ p, isDigit x = true) (hc : isDigit c = false)
    (hlt : decimalFrom 0 p < 2 ^ 64) :
    ParseUint ⟨p ++ c :: rest⟩ = (0, some .errSyn) := by
  have hne : (⟨p ++ c :: rest⟩ : String) ≠ "" := by
    intro h
    have := congrArg String.data h
    simp at this
  rw [ParseUint, if_neg hne]
  exact parseUintLoop_invalid p c rest 0 hd hc hlt

/-- The call `ParseUint(s, 10, 64)` returns 0 when `s` is not a string of digits and the
digits it starts with denote a value below `2^64`; this covers the empty string. -/
theorem ParseUint_not_decimal (s : String) (hs : isDecimal s = false)
    (hlt : decimalFrom 0 (leadingDigits s) < 2 ^ 64) : (ParseUint s).1 = 0 := by
  by_cases hempty : s.data = []
  · have : s = "" := String.ext hempty
    rw [this]
    rfl
  · have hall : ¬ (∀ x ∈ s.data, isDigit x = true) := by
      intro hall
      have : isDecimal s = true := by
        unfold isDecimal
        simp only [Bool.and_eq_true, Bool.not_eq_true', List.isEmpty_eq_false, List.all_eq_true]
        exact ⟨hempty, hall⟩
      rw [this] at hs
      exact Bool.noConfusion hs
    have hdrop : s.data.dropWhile isDigit ≠ [] := by
      intro h
      exact hall (List.dropWhile_eq_nil_iff.mp h)
    obtain ⟨c, rest, hcr⟩ := List.exists_cons_of_ne_nil hdrop
    have hc : isDigit c = false := by
      have := List.head_dropWhile_not isDigit s.data hdrop
      simpa [hcr] using this
    have hsplit : s = ⟨leadingDigits s ++ c :: rest⟩ := by
      apply String.ext
      show s.data = s.data.takeWhile isDigit ++ c :: rest
      rw [← hcr, List.takeWhile_append_dropWhile]
    have hres := ParseUint_invalid (leadingDigits s) c rest
      (fun x hx => List.mem_takeWhile_imp hx) hc hlt
    rw [← hsplit] at hres
    rw [hres]

theorem Header.Get_absent (h : Header) (key : String) (habs : h.lookup key = none) :
    Header.Get h key = "" := by
  simp [Header.Get, habs]

/-- Every call of `next` requests the poll URL exactly once. -/
theorem next_requests (env : Env) (w : metaWatcher) (world : World) :
    (w.next env world).2.2.requests = world.requests ++ [pollURL env w] := by
  cases hf : pollFails (env.Get (world.requests ++ [pollURL env w])) with
  | true =>
    obtain ⟨e, he⟩ := next_failure env w world hf
    rw [he]
  | false =>
    obtain ⟨resp, new, hget, hstatus, hdec⟩ := (pollFails_false_iff _).mp hf
    rw [next_success env w world resp new hget hstatus hdec]

/-- Claim C2: after a successful poll (status 200, body decoding to `S`, header `X-Index`
a string of decimal digits denoting `n < 2^64`) the watcher holds the address set `S`
and the index `n`, whatever it held before; service name and channel are unchanged. -/
theorem next_success_replaces_set_and_index (env : Env) (w : metaWatcher) (world : World)
    (resp : Response) (S : GoMap) (n : Nat)
    (hget : env.Get (world.requests ++ [pollURL env w]) = .ok resp)
    (hstatus : resp.StatusCode = StatusOK)
    (hdec : decodeAddrs resp.Body = .ok S)
    (hx : isDecimal (resp.Header.Get "X-Index") = true)
    (hval : decimalValue (resp.Header.Get "X-Index") = n)
    (hn : n < 2 ^ 64) :
    (w.next env world).1.2 = none ∧
    (w.next env world).2.1.addrs = S ∧
    (w.next env world).2.1.index = n ∧
    (w.next env world).2.1.service = w.service ∧
    (w.next env world).2.1.cancelCh = w.cancelCh := by
  rw [next_success env w world resp S hget hstatus hdec]
  refine ⟨rfl, rfl, ?_, rfl, rfl⟩
  show (ParseUint (resp.Header.Get "X-Index")).1 = n
  rw [ParseUint_decimal _ hx (hval ▸ hn), hval]

theorem next_success_replaces_set_and_index_witness :
    (scriptedEnv [.ok sampleResponse]).Get
        (World.init.requests ++ [pollURL (scriptedEnv [.ok sampleResponse]) sampleWatcher]) =
      .ok sampleResponse ∧
    sampleResponse.StatusCode = StatusOK ∧
    decodeAddrs sampleResponse.Body = .ok sampleNew ∧
    isDecimal (sampleResponse.Header.Get "X-Index") = true ∧
    decimalValue (sampleResponse.Header.Get "X-Index") = 6 ∧
    (sampleWatcher.next (scriptedEnv [.ok sampleResponse]) World.init).2.1.addrs = sampleNew ∧
    (sampleWatcher.next (scriptedEnv [.ok sampleResponse]) World.init).2.1.index = 6 :=
  have h := next_success_replaces_set_and_index (scriptedEnv [.ok sampleResponse])
    sampleWatcher World.init sampleResponse sampleNew 6 rfl rfl rfl (by decide) (by decide)
    (by norm_num)
  ⟨rfl, rfl, rfl, by decide, by decide, h.2.1, h.2.2.1⟩

/-- Claim C10, as stated, fails: a 200 answer whose `X-Index` is twenty nines followed by
the letter x is not a decimal number, yet `next` stores the index `2^64 - 1`, not 0. -/
theorem next_invalid_index_counterexample :
    (scriptedEnv [.ok overflowResponse]).Get
        (World.init.requests ++ [pollURL (scriptedEnv [.ok overflowResponse]) sampleWatcher]) =
      .ok overflowResponse ∧
    overflowResponse.StatusCode = StatusOK ∧
    decodeAddrs overflowResponse.Body = .ok makeMap ∧
    isDecimal (overflowResponse.Header.Get "X-Index") = false ∧
    (sampleWatcher.next (scriptedEnv [.ok overflowResponse]) World.init).1.2 = none ∧
    (sampleWatcher.next (scriptedEnv [.ok overflowResponse]) World.init).2.1.index =
      18446744073709551615 ∧
    (sampleWatcher.next (scriptedEnv [.ok overflowResponse]) World.init).2.1.index ≠ 0 :=
  ⟨rfl, rfl, rfl, by decide, by decide, by decide, by decide⟩

/-- Claim C10, amended: on a 200 answer with a decodable body whose `X-Index` header is
absent, empty, or not a string of decimal digits while the digits it starts with denote
a value below `2^64`, `next` succeeds with the computed updates, replaces the address
set, and stores index 0 whatever the index was; the following poll asks for `index=0`. -/
theorem next_invalid_index_resets (env : Env) (w : metaWatcher) (world : World)
    (resp : Response) (new : GoMap)
    (hget : env.Get (world.requests ++ [pollURL env w]) = .ok resp)
    (hstatus : resp.StatusCode = StatusOK)
    (hdec : decodeAddrs resp.Body = .ok new)
    (hx : resp.Header.lookup "X-Index" = none ∨ resp.Header.Get "X-Index" = "" ∨
      (isDecimal (resp.Header.Get "X-Index") = false ∧
        decimalFrom 0 (leadingDigits (resp.Header.Get "X-Index")) < 2 ^ 64)) :
    (w.next env world).1 =
      (addLoop w.addrs (env.order (world.ranges + 1) (GoMap.keys new))
        (deleteLoop new (env.order world.ranges (GoMap.keys w.addrs)) []), none) ∧
    (w.next env world).2.1.addrs = new ∧
    (w.next env world).2.1.index = 0 ∧
    (((w.next env world).2.1.next env (w.next env world).2.2).2.2.requests.getLast? =
      some ("http://meta/v1/services/" ++ env.QueryEscape w.service ++ "?index=0")) := by
  have hzero : (ParseUint (resp.Header.Get "X-Index")).1 = 0 := by
    rcases hx with habs | hemp | ⟨hnd, hlt⟩
    · rw [Header.Get_absent _ _ habs]; rfl
    · rw [hemp]; rfl
    · exact ParseUint_not_decimal _ hnd hlt
  rw [next_requests]
  rw [next_success env w world resp new hget hstatus hdec]
  refine ⟨rfl, rfl, hzero, ?_⟩
  rw [List.getLast?_append, List.getLast?_singleton]
  simp only [pollURL, hzero]
  show some (_ ++ "?index=" ++ "0") = _
  rw [String.append_assoc _ "?index=" "0"]
  rfl

theorem next_invalid_index_resets_witness :
    (scriptedEnv [.ok badIndexResponse]).Get
        (World.init.requests ++ [pollURL (scriptedEnv [.ok badIndexResponse]) sampleWatcher]) =
      .ok badIndexResponse ∧
    badIndexResponse.StatusCode = StatusOK ∧
    decodeAddrs badIndexResponse.Body = .ok (some ⟨["c:3"], by decide⟩) ∧
    isDecimal (badIndexResponse.Header.Get "X-Index") = false ∧
    decimalFrom 0 (leadingDigits (badIndexResponse.Header.Get "X-Index")) < 2 ^ 64 ∧
    sampleWatcher.index = 5 ∧
    (sampleWatcher.next (scriptedEnv [.ok badIndexResponse]) World.init).2.1.index = 0 :=
  have h := next_invalid_index_resets (scriptedEnv [.ok badIndexResponse])
    sampleWatcher World.init badIndexResponse (some ⟨["c:3"], by decide⟩) rfl rfl rfl
    (Or.inr (Or.inr ⟨by decide, by decide⟩))
  ⟨rfl, rfl, rfl, by decide, by decide, rfl, h.2.2.1⟩

/-! ## The retry loop: `metaWatcher.Next` -/

theorem retry_unfold (env : Env) (w : metaWatcher) (world : World) (c : Nat) :
    w.retry env world c =
      if (w.next env world).1.2 ≠ none ∧ c < 6 then
        metaWatcher.retry env (w.next env world).2.1
          ((w.next env world).2.2.Sleep (shiftLeft Second c)) (c + 1)
      else w.next env world := by
  rw [metaWatcher.retry]

/-- When `next` returns an error it returns no updates and the watcher is untouched. -/
theorem next_error_unchanged (env : Env) (w : metaWatcher) (world : World)
    (herr : (w.next env world).1.2 ≠ none) :
    (w.next env world).1.1 = [] ∧ (w.next env world).2.1 = w := by
  cases hf : pollFails (env.Get (world.requests ++ [pollURL env w])) with
  | true =>
    obtain ⟨e, he⟩ := next_failure env w world hf
    rw [he]
    exact ⟨rfl, rfl⟩
  | false =>
    obtain ⟨resp, new, hget, hstatus, hdec⟩ := (pollFails_false_iff _).mp hf
    rw [next_success env w world resp new hget hstatus hdec] at herr
    exact absurd rfl herr

/-- The loop after a failed attempt with retries left: sleep and try again. -/
theorem retry_fail_step (env : Env) (w : metaWatcher) (world : World) (c : Nat)
    (hfail : pollFails (env.Get (world.requests ++ [pollURL env w])) = true) (hc : c < 6) :
    w.retry env world c =
      w.retry env
        (World.Sleep { world with requests := world.requests ++ [pollURL env w] }
          (shiftLeft Second c)) (c + 1) := by
  obtain ⟨e, he⟩ := next_failure env w world hfail
  rw [retry_unfold, he]
  simp [hc]

/-- The loop returns the result of `next` when the poll succeeds or no retry is left. -/
theorem retry_stop (env : Env) (w : metaWatcher) (world : World) (c : Nat)
    (h : pollFails (env.Get (world.requests ++ [pollURL env w])) = false ∨ 6 ≤ c) :
    w.retry env world c = w.next env world := by
  rw [retry_unfold]
  apply if_neg
  rintro ⟨herr, hc⟩
  rcases h with h | h
  · obtain ⟨resp, new, hget, hstatus, hdec⟩ := (pollFails_false_iff _).mp h
    rw [next_success env w world resp new hget hstatus hdec] at herr
    exact herr rfl
  · omega

theorem retry_after_failures (env : Env) (w : metaWatcher) (world : World) (k : Nat)
    (hk : k ≤ 6)
    (hfail : ∀ j, j < k →
      pollFails (env.Get ((afterFailures env w world j).requests ++ [pollURL env w])) = true) :
    w.retry env world 0 = w.retry env (afterFailures env w world k) k := by
  induction k with
  | zero => rfl
  | succ k ih =>
    rw [ih (by omega) (fun j hj => hfail j (by omega)),
      retry_fail_step env w _ k (hfail k (by omega)) (by omega)]
    rfl

theorem afterFailures_requests (env : Env) (w : metaWatcher) (world : World) (k : Nat) :
    (afterFailures env w world k).requests =
      world.requests ++ List.replicate k (pollURL env w) := by
  induction k with
  | zero => simp [afterFailures]
  | succ k ih =>
    simp only [afterFailures, World.Sleep, ih, List.append_assoc]
    rw [List.replicate_succ']

theorem shiftLeft_Second (i : Nat) (hi : i < 6) : shiftLeft Second i = 1000000000 * 2 ^ i := by
  interval_cases i <;> decide

theorem afterFailures_slept (env : Env) (w : metaWatcher) (world : World) (k : Nat) :
    (afterFailures env w world k).slept =
      world.slept ++ (List.range k).map (fun i => shiftLeft Second i) := by
  induction k with
  | zero => simp [afterFailures]
  | succ k ih =>
    simp only [afterFailures, World.Sleep, ih, List.range_succ, List.map_append, List.map_cons,
      List.map_nil, List.append_assoc]

/-- Total of the sleeps `1s << 0, ..., 1s << (k-1)`. -/
theorem sum_backoff (k : Nat) :
    ((List.range k).map (fun i => (1000000000 : Int) * 2 ^ i)).sum = (2 ^ k - 1) * 1000000000 := by
  induction k with
  | zero => simp
  | succ k ih =>
    rw [List.range_succ, List.map_append, List.sum_append, ih]
    simp only [List.map_cons, List.map_nil, List.sum_cons, List.sum_nil]
    ring

/-- Only `time.Sleep` writes the sleep log: `next` leaves it alone. -/
theorem next_slept (env : Env) (w : metaWatcher) (world : World) :
    (w.next env world).2.2.slept = world.slept := by
  cases hf : pollFails (env.Get (world.requests ++ [pollURL env w])) with
  | true =>
    obtain ⟨e, he⟩ := next_failure env w world hf
    rw [he]
  | false =>
    obtain ⟨resp, new, hget, hstatus, hdec⟩ := (pollFails_false_iff _).mp hf
    rw [next_success env w world resp new hget hstatus hdec]

theorem backoff_eq (k : Nat) (hk : k ≤ 6) :
    (List.range k).map (fun i => shiftLeft Second i) =
      (List.range k).map (fun i => (1000000000 : Int) * 2 ^ i) := by
  apply List.map_congr_left
  intro i hi
  rw [List.mem_range] at hi
  exact shiftLeft_Second i (by omega)

theorem retry_requests_length (env : Env) (n : Nat) :
    ∀ (c : Nat) (w : metaWatcher) (world : World), c ≤ 6 → 6 - c ≤ n →
      (w.retry env world c).2.2.requests.length ≤ world.requests.length + (7 - c) := by
  induction n with
  | zero =>
    intro c w world hc hn
    rw [retry_stop env w world c (Or.inr (by omega)), next_requests]
    simp only [List.length_append, List.length_singleton]
    omega
  | succ n ih =>
    intro c w world hc hn
    rw [retry_unfold]
    by_cases hcond : (w.next env world).1.2 ≠ none ∧ c < 6
    · rw [if_pos hcond]
      have hreq : ((w.next env world).2.2.Sleep (shiftLeft Second c)).requests.length =
          world.requests.length + 1 := by
        simp only [World.Sleep, next_requests, List.length_append, List.length_singleton]
      have := ih (c + 1) (w.next env world).2.1
        ((w.next env world).2.2.Sleep (shiftLeft Second c)) (by omega) (by omega)
      rw [hreq] at this
      omega
    · rw [if_neg hcond, next_requests]
      simp only [List.length_append, List.length_singleton]
      omega

theorem retry_error_unchanged (env : Env) (n : Nat) :
    ∀ (c : Nat) (w : metaWatcher) (world : World), 6 - c ≤ n →
      (w.retry env world c).1.2 ≠ none →
      (w.retry env world c).1.1 = [] ∧ (w.retry env world c).2.1 = w := by
  induction n with
  | zero =>
    intro c w world hn
    rw [retry_stop env w world c (Or.inr (by omega))]
    exact next_error_unchanged env w world
  | succ n ih =>
    intro c w world hn
    rw [retry_unfold]
    by_cases hcond : (w.next env world).1.2 ≠ none ∧ c < 6
    · rw [if_pos hcond, (next_error_unchanged env w world hcond.1).2]
      exact ih (c + 1) w _ (by omega)
    · rw [if_neg hcond]
      exact next_error_unchanged env w world

/-- Claim C3: a failed poll attempt (transport error, non-200 status or body decode error)
makes `next` return an error and no updates and leaves the watcher, in particular its
address set and index, as it was; and whenever `Next` returns an error, it returns no
updates and the watcher is as it was before the call. -/
theorem failed_poll_leaves_watcher_unchanged (env : Env) (w : metaWatcher) (world : World) :
    (pollFails (env.Get (world.requests ++ [pollURL env w])) = true →
      (w.next env world).1.2 ≠ none ∧ (w.next env world).1.1 = [] ∧
      (w.next env world).2.1 = w) ∧
    ((w.Next env world).1.2 ≠ none →
      (w.Next env world).1.1 = [] ∧ (w.Next env world).2.1 = w ∧
      (w.Next env world).2.1.addrs = w.addrs ∧ (w.Next env world).2.1.index = w.index) := by
  constructor
  · intro hfail
    obtain ⟨e, he⟩ := next_failure env w world hfail
    rw [he]
    exact ⟨fun h => Option.noConfusion h, rfl, rfl⟩
  · intro herr
    have key : (w.Next env world).1.1 = [] ∧ (w.Next env world).2.1 = w := by
      unfold metaWatcher.Next at herr ⊢
      by_cases hnil : w.addrs = none
      · rw [if_pos hnil] at herr ⊢
        exact next_error_unchanged env w world herr
      · rw [if_neg hnil] at herr ⊢
        exact retry_error_unchanged env 6 0 w world (by omega) herr
    exact ⟨key.1, key.2, by rw [key.2], by rw [key.2]⟩

theorem failed_poll_leaves_watcher_unchanged_witness :
    pollFails ((scriptedEnv []).Get
      (World.init.requests ++ [pollURL (scriptedEnv []) sampleWatcher])) = true ∧
    (sampleWatcher.next (scriptedEnv []) World.init).1.1 = [] ∧
    (sampleWatcher.next (scriptedEnv []) World.init).2.1 = sampleWatcher ∧
    (sampleWatcher.Next (scriptedEnv []) World.init).1.2 ≠ none ∧
    (sampleWatcher.Next (scriptedEnv []) World.init).2.1 = sampleWatcher :=
  have h := failed_poll_leaves_watcher_unchanged (scriptedEnv []) sampleWatcher World.init
  have hnext := h.1 (by decide)
  have herr : (sampleWatcher.Next (scriptedEnv []) World.init).1.2 ≠ none := by
    have hs : sampleWatcher.Next (scriptedEnv []) World.init =
        sampleWatcher.retry (scriptedEnv []) World.init 0 := by
      rw [metaWatcher.Next, if_neg (by decide)]
    rw [hs, retry_after_failures (scriptedEnv []) sampleWatcher World.init 6 (by omega)
      (fun j _ => rfl), retry_stop _ _ _ 6 (Or.inr (by omega))]
    exact (next_failure (scriptedEnv []) sampleWatcher _ rfl).elim
      (fun e he => by rw [he]; exact fun h => Option.noConfusion h)
  ⟨by decide, hnext.2.1, hnext.2.2, herr, (h.2 herr).2.1⟩

theorem Next_eq_retry (env : Env) (w : metaWatcher) (world : World) (h : w.addrs ≠ none) :
    w.Next env world = w.retry env world 0 := by
  rw [metaWatcher.Next, if_neg h]

/-- Claim C4: for a watcher with a non-nil address map (as `Resolve` creates it) and a
daemon whose every answer is a failure, `Next` polls exactly 7 times, sleeping after
each of the first 6 attempts, and returns the error of the 7th attempt; and for every
daemon and every watcher, one `Next` call polls at most 7 times. -/
theorem Next_polls_at_most_seven_times (env : Env) (w : metaWatcher) (world : World) :
    (w.addrs ≠ none → (∀ hist, pollFails (env.Get hist) = true) →
      (w.Next env world).2.2.requests = world.requests ++ List.replicate 7 (pollURL env w) ∧
      (w.Next env world).1 = (w.next env (afterFailures env w world 6)).1 ∧
      (w.Next env world).1.2 ≠ none ∧
      (w.Next env world).2.2.slept =
        world.slept ++ (List.range 6).map (fun i => (1000000000 : Int) * 2 ^ i)) ∧
    (w.Next env world).2.2.requests.length ≤ world.requests.length + 7 := by
  constructor
  · intro hnil hall
    have hrun : w.Next env world = w.next env (afterFailures env w world 6) := by
      rw [Next_eq_retry env w world hnil,
        retry_after_failures env w world 6 (Nat.le_refl 6) (fun j _ => hall _),
        retry_stop env w _ 6 (Or.inr (Nat.le_refl 6))]
    obtain ⟨e, he⟩ := next_failure env w (afterFailures env w world 6) (hall _)
    refine ⟨?_, by rw [hrun], ?_, ?_⟩
    · rw [hrun, next_requests, afterFailures_requests, List.append_assoc,
        ← List.replicate_succ']
    · rw [hrun, he]
      exact fun h => Option.noConfusion h
    · rw [hrun, next_slept, afterFailures_slept, backoff_eq 6 (Nat.le_refl 6)]
  · unfold metaWatcher.Next
    by_cases hnil : w.addrs = none
    · rw [if_pos hnil, next_requests]
      simp only [List.length_append, List.length_singleton]
      omega
    · rw [if_neg hnil]
      exact retry_requests_length env 6 0 w world (by omega) (by omega)

theorem Next_polls_at_most_seven_times_witness :
    (metaResolver.Resolve "svc").addrs ≠ none ∧
    (∀ hist, pollFails ((scriptedEnv []).Get hist) = true) ∧
    ((metaResolver.Resolve "svc").Next (scriptedEnv []) World.init).2.2.requests =
      List.replicate 7 "http://meta/v1/services/svc?index=0" ∧
    ((metaResolver.Resolve "svc").Next (scriptedEnv []) World.init).2.2.slept =
      [1000000000, 2000000000, 4000000000, 8000000000, 16000000000, 32000000000] :=
  have hall : ∀ hist, pollFails ((scriptedEnv []).Get hist) = true := fun _ => rfl
  have h := (Next_polls_at_most_seven_times (scriptedEnv []) (metaResolver.Resolve "svc")
    World.init).1 (by decide) hall
  ⟨by decide, hall, h.1.trans (by decide), h.2.2.2.trans (by decide)⟩

/-- Claim C5, as stated, fails: the watcher made by `Resolve` holds a nil address map after
a 200 answer with body `null`; on its next `Next` call the first poll attempt fails and
the daemon would answer the second one successfully (the premises for `k = 1`), yet
`Next` takes the branch without retries: it polls once, does not sleep and returns the
error of the first attempt. -/
theorem Next_without_retry_counterexample :
    nextTimes (scriptedEnv recoveringScript) 1 (metaResolver.Resolve "svc") World.init =
      (nilWatcher, nilWorld) ∧
    1 ≤ 6 ∧
    (∀ j, j < 1 → pollFails ((scriptedEnv recoveringScript).Get
      ((afterFailures (scriptedEnv recoveringScript) nilWatcher nilWorld j).requests
        ++ [pollURL (scriptedEnv recoveringScript) nilWatcher])) = true) ∧
    pollFails ((scriptedEnv recoveringScript).Get
      ((afterFailures (scriptedEnv recoveringScript) nilWatcher nilWorld 1).requests
        ++ [pollURL (scriptedEnv recoveringScript) nilWatcher])) = false ∧
    nilWatcher.Next (scriptedEnv recoveringScript) nilWorld =
      (([], some "lib/service: discovery error: connection reset by peer"), nilWatcher,
        { requests := ["http://meta/v1/services/svc?index=0",
            "http://meta/v1/services/svc?index=1"],
          slept := [], ranges := 2, draws := 0, dials := [], closes := 0 }) ∧
    (nilWatcher.Next (scriptedEnv recoveringScript) nilWorld).1.2 ≠ none ∧
    (nilWatcher.Next (scriptedEnv recoveringScript) nilWorld).2.2.slept = [] := by
  have hfirst : nextTimes (scriptedEnv recoveringScript) 1 (metaResolver.Resolve "svc")
      World.init = (nilWatcher, nilWorld) := by
    simp only [nextTimes]
    rw [Next_eq_retry _ _ _ (by decide),
      retry_stop (scriptedEnv recoveringScript) (metaResolver.Resolve "svc") World.init 0
        (Or.inl rfl)]
    decide
  have hrun : nilWatcher.Next (scriptedEnv recoveringScript) nilWorld =
      (([], some "lib/service: discovery error: connection reset by peer"), nilWatcher,
        { requests := ["http://meta/v1/services/svc?index=0",
            "http://meta/v1/services/svc?index=1"],
          slept := [], ranges := 2, draws := 0, dials := [], closes := 0 }) := by
    have hnil : nilWatcher.addrs = none := rfl
    rw [metaWatcher.Next, if_pos hnil]
    decide
  refine ⟨hfirst, by decide, ?_, rfl, hrun, ?_, ?_⟩
  · intro j hj
    interval_cases j
    rfl
  · rw [hrun]
    exact fun h => Option.noConfusion h
  · rw [hrun]

/-- Claim C5, amended: for `0 ≤ k ≤ 6` and a watcher whose address map is non-nil (or for
`k = 0` with any watcher), when the first `k` poll attempts of a `Next` call fail and
attempt `k+1` succeeds, `Next` returns the result of that attempt (no error) after
`k+1` polls, having slept exactly `1s << 0, ..., 1s << (k-1)` in this order, that is
`1s, 2s, ..., 2^(k-1) s`, which add up to `(2^k - 1)` seconds. The condition on the map
is the hypothesis `hloop`: with a nil map `Next` makes a single attempt. -/
theorem Next_succeeds_after_backoff (env : Env) (w : metaWatcher) (world : World) (k : Nat)
    (hk : k ≤ 6) (hloop : w.addrs ≠ none ∨ k = 0)
    (hfail : ∀ j, j < k →
      pollFails (env.Get ((afterFailures env w world j).requests ++ [pollURL env w])) = true)
    (hok : pollFails (env.Get ((afterFailures env w world k).requests ++ [pollURL env w])) =
      false) :
    w.Next env world = w.next env (afterFailures env w world k) ∧
    (w.Next env world).1.2 = none ∧
    (w.Next env world).2.2.requests =
      world.requests ++ List.replicate (k + 1) (pollURL env w) ∧
    (w.Next env world).2.2.slept =
      world.slept ++ (List.range k).map (fun i => shiftLeft Second i) ∧
    (List.range k).map (fun i => shiftLeft Second i) =
      (List.range k).map (fun i => (1000000000 : Int) * 2 ^ i) ∧
    ((List.range k).map (fun i => (1000000000 : Int) * 2 ^ i)).sum =
      (2 ^ k - 1) * 1000000000 := by
  have hrun : w.Next env world = w.next env (afterFailures env w world k) := by
    by_cases hnil : w.addrs = none
    · have hk0 : k = 0 := by
        rcases hloop with h | h
        · exact absurd hnil h
        · exact h
      subst hk0
      rw [metaWatcher.Next, if_pos hnil]
      rfl
    · rw [Next_eq_retry env w world hnil, retry_after_failures env w world k hk hfail,
        retry_stop env w _ k (Or.inl hok)]
  obtain ⟨resp, new, hget, hstatus, hdec⟩ := (pollFails_false_iff _).mp hok
  refine ⟨hrun, ?_, ?_, ?_, backoff_eq k hk, sum_backoff k⟩
  · rw [hrun, next_success env w _ resp new hget hstatus hdec]
  · rw [hrun, next_requests, afterFailures_requests, List.append_assoc,
      ← List.replicate_succ']
  · rw [hrun, next_slept, afterFailures_slept]

theorem Next_succeeds_after_backoff_witness :
    3 ≤ 6 ∧
    ((metaResolver.Resolve "svc").addrs ≠ none ∨ 3 = 0) ∧
    (∀ j, j < 3 → pollFails ((scriptedEnv flakyScript).Get
      ((afterFailures (scriptedEnv flakyScript) (metaResolver.Resolve "svc") World.init j).requests
        ++ [pollURL (scriptedEnv flakyScript) (metaResolver.Resolve "svc")])) = true) ∧
    pollFails ((scriptedEnv flakyScript).Get
      ((afterFailures (scriptedEnv flakyScript) (metaResolver.Resolve "svc") World.init 3).requests
        ++ [pollURL (scriptedEnv flakyScript) (metaResolver.Resolve "svc")])) = false ∧
    ((metaResolver.Resolve "svc").Next (scriptedEnv flakyScript) World.init).1.2 = none ∧
    ((metaResolver.Resolve "svc").Next (scriptedEnv flakyScript) World.init).2.2.slept =
      [1000000000, 2000000000, 4000000000] ∧
    ((List.range 3).map (fun i => (1000000000 : Int) * 2 ^ i)).sum = 7 * 1000000000 :=
  have hfail : ∀ j, j < 3 → pollFails ((scriptedEnv flakyScript).Get
      ((afterFailures (scriptedEnv flakyScript) (metaResolver.Resolve "svc") World.init j).requests
        ++ [pollURL (scriptedEnv flakyScript) (metaResolver.Resolve "svc")])) = true := by
    intro j hj
    interval_cases j <;> rfl
  have h := Next_succeeds_after_backoff (scriptedEnv flakyScript) (metaResolver.Resolve "svc")
    World.init 3 (by decide) (Or.inl (by decide)) hfail rfl
  ⟨by decide, Or.inl (by decide), hfail, rfl, h.2.1,
    h.2.2.2.1.trans (by rw [h.2.2.2.2.1]; rfl), h.2.2.2.2.2.trans (by decide)⟩

/-! ## The nil address map and the branch without retries -/

/-- The decoded map is nil only when the body is the JSON value `null`. -/
theorem decodeAddrs_nil (b : Body) (h : decodeAddrs b = .ok none) : b.json = .ok .null := by
  unfold decodeAddrs at h
  cases hj : b.json with
  | error e => rw [hj] at h; exact Except.noConfusion h
  | ok j =>
    rw [hj] at h
    cases j with
    | null => rfl
    | obj members =>
      by_cases hall : (members.all (fun kv => decodeEmptyStruct kv.2)) = true
      · simp only [hall, if_true] at h
        injection h with h'
        exact Option.noConfusion h'
      · simp only [hall] at h
        exact Except.noConfusion h
    | bool _ => exact Except.noConfusion h
    | num _ => exact Except.noConfusion h
    | str _ => exact Except.noConfusion h
    | arr _ => exact Except.noConfusion h

theorem next_keeps_map (env : Env) (w : metaWatcher) (world : World)
    (hnull : answersNull (env.Get (world.requests ++ [pollURL env w])) = false)
    (hw : w.addrs ≠ none) : (w.next env world).2.1.addrs ≠ none := by
  cases hf : pollFails (env.Get (world.requests ++ [pollURL env w])) with
  | true =>
    obtain ⟨e, he⟩ := next_failure env w world hf
    rw [he]
    exact hw
  | false =>
    obtain ⟨resp, new, hget, hstatus, hdec⟩ := (pollFails_false_iff _).mp hf
    rw [next_success env w world resp new hget hstatus hdec]
    intro hnew
    have hnew' : new = none := hnew
    rw [hnew'] at hdec
    have hj := decodeAddrs_nil _ hdec
    rw [hget] at hnull
    simp [answersNull, hstatus, hj] at hnull

theorem retry_keeps_map (env : Env) (hnull : ∀ hist, answersNull (env.Get hist) = false)
    (n : Nat) :
    ∀ (c : Nat) (w : metaWatcher) (world : World), 6 - c ≤ n → w.addrs ≠ none →
      (w.retry env world c).2.1.addrs ≠ none := by
  induction n with
  | zero =>
    intro c w world hn hw
    rw [retry_stop env w world c (Or.inr (by omega))]
    exact next_keeps_map env w world (hnull _) hw
  | succ n ih =>
    intro c w world hn hw
    rw [retry_unfold]
    by_cases hcond : (w.next env world).1.2 ≠ none ∧ c < 6
    · rw [if_pos hcond]
      exact ih (c + 1) _ _ (by omega) (next_keeps_map env w world (hnull _) hw)
    · rw [if_neg hcond]
      exact next_keeps_map env w world (hnull _) hw

theorem nextTimes_keeps_map (env : Env) (hnull : ∀ hist, answersNull (env.Get hist) = false)
    (n : Nat) :
    ∀ (w : metaWatcher) (world : World), w.addrs ≠ none →
      (nextTimes env n w world).1.addrs ≠ none := by
  induction n with
  | zero => intro w world hw; exact hw
  | succ n ih =>
    intro w world hw
    rw [nextTimes]
    apply ih
    rw [Next_eq_retry env w world hw]
    exact retry_keeps_map env hnull 6 0 w world (by omega) hw

/-- Claim C9, as stated, fails: after a 200 answer whose body is `null` the watcher created
by `Resolve` holds a nil address map, and the following `Next` takes the branch without
retries: against a daemon that then refuses the connection it gives up after a single
poll and without sleeping. -/
theorem Next_after_null_counterexample :
    (nextTimes (scriptedEnv [.ok nullResponse]) 1 (metaResolver.Resolve "svc") World.init).1.addrs
      = none ∧
    ((nextTimes (scriptedEnv [.ok nullResponse]) 1 (metaResolver.Resolve "svc")
        World.init).1.Next (scriptedEnv [.ok nullResponse])
      (nextTimes (scriptedEnv [.ok nullResponse]) 1 (metaResolver.Resolve "svc")
        World.init).2) =
      (([], some "lib/service: discovery error: connection refused"),
        { service := "svc", index := 1, addrs := none, cancelCh := .opened },
        { requests := ["http://meta/v1/services/svc?index=0",
            "http://meta/v1/services/svc?index=1"],
          slept := [], ranges := 2, draws := 0, dials := [], closes := 0 }) := by
  have hfirst : nextTimes (scriptedEnv [.ok nullResponse]) 1 (metaResolver.Resolve "svc")
      World.init =
      ({ service := "svc", index := 1, addrs := none, cancelCh := .opened },
        { requests := ["http://meta/v1/services/svc?index=0"],
          slept := [], ranges := 2, draws := 0, dials := [], closes := 0 }) := by
    simp only [nextTimes]
    rw [Next_eq_retry _ _ _ (by decide),
      retry_stop (scriptedEnv [.ok nullResponse]) (metaResolver.Resolve "svc") World.init 0
        (Or.inl rfl)]
    decide
  rw [hfirst]
  constructor
  · rfl
  · rw [metaWatcher.Next, if_pos rfl]
    decide

/-- Claim C9, amended: `Resolve` creates the watcher with a non-nil empty address map and
index 0, and as long as the daemon never answers 200 with the body `null`, the map is
non-nil after every finite sequence of `Next` calls, so the following `Next` call runs
the retry loop and not the branch without retries. -/
theorem Next_always_retries_without_null (env : Env) (service : String) (world : World)
    (n : Nat) (hnull : ∀ hist, answersNull (env.Get hist) = false) :
    (metaResolver.Resolve service).addrs = makeMap ∧
    (metaResolver.Resolve service).index = 0 ∧
    (nextTimes env n (metaResolver.Resolve service) world).1.addrs ≠ none ∧
    (nextTimes env n (metaResolver.Resolve service) world).1.Next env
        (nextTimes env n (metaResolver.Resolve service) world).2 =
      (nextTimes env n (metaResolver.Resolve service) world).1.retry env
        (nextTimes env n (metaResolver.Resolve service) world).2 0 := by
  have hres : (metaResolver.Resolve service).addrs ≠ none := by
    intro h
    exact Option.noConfusion h
  have hkeep := nextTimes_keeps_map env hnull n (metaResolver.Resolve service) world hres
  exact ⟨rfl, rfl, hkeep, Next_eq_retry env _ _ hkeep⟩

theorem Next_always_retries_without_null_witness :
    (∀ hist, answersNull ((scriptedEnv flakyScript).Get hist) = false) ∧
    (nextTimes (scriptedEnv flakyScript) 2 (metaResolver.Resolve "svc") World.init).1.addrs
      ≠ none :=
  have hnull : ∀ hist, answersNull ((scriptedEnv flakyScript).Get hist) = false := by
    intro hist
    show answersNull (flakyScript.getD (hist.length - 1) (.error "connection refused")) = false
    generalize hist.length - 1 = i
    rcases i with _ | _ | _ | _ | _ | i <;> rfl
  ⟨hnull, (Next_always_retries_without_null (scriptedEnv flakyScript) "svc" World.init 2
    hnull).2.2.1⟩

/-! ## `metaWatcher.Close` -/

/-- With a non-200 answer the error of `dialRaw` is built from the service name and the
status text alone. -/
theorem dialRaw_non200 (env : Env) (world : World) (network address service port : String)
    (resp : Response)
    (hsplit : env.SplitHostPort address = .ok (service, port))
    (hget : env.Get (world.requests ++ ["http://meta/v1/services/" ++ service]) = .ok resp)
    (hstatus : resp.StatusCode ≠ StatusOK) :
    dialRaw env world network address =
      (.ret (.error ("couldn't dial service " ++ service ++ ": " ++ resp.Status)),
        { world with requests := world.requests ++ ["http://meta/v1/services/" ++ service] }) := by
  simp [dialRaw, hsplit, World.Get, hget, hstatus]

/-- Claim C6 fails on the code: for the service `svc` and a 503 answer with the body
`upstream overloaded`, the error of `dialRaw` holds the status text and not the body. -/
theorem dialRaw_error_omits_body :
    ((scriptedEnv unavailableScript).Get
        (World.init.requests ++ ["http://meta/v1/services/svc"])).map
        (fun resp => (resp.StatusCode, resp.Status, resp.Body.content)) =
      .ok (503, "503 Service Unavailable", "upstream overloaded") ∧
    dialRaw (scriptedEnv unavailableScript) World.init "tcp" "svc:80" =
      (.ret (.error "couldn't dial service svc: 503 Service Unavailable"),
        { requests := ["http://meta/v1/services/svc"],
          slept := [], ranges := 0, draws := 0, dials := [], closes := 0 }) := by
  constructor
  · rfl
  · rw [dialRaw_non200 (scriptedEnv unavailableScript) World.init "tcp" "svc:80" "svc" "80"
      (plainResponse 503 "503 Service Unavailable" "upstream overloaded")
      rfl rfl (by decide)]
    rfl

/-- Claim C7: when the host part of the dial target is the service name and the one-shot
answer has status 200 and a body decoding to `entries`, then with no entry `dialRaw`
returns the error `no healthy instances` for the service without drawing a random
number or calling `net.Dial`, and with at least one entry it does not panic: the drawn
index is below the length, and the one address dialled is the entry at that index. -/
theorem dialRaw_picks_listed_entry (env : Env) (world : World)
    (network address service port : String) (resp : Response) (entries : List String)
    (hsplit : env.SplitHostPort address = .ok (service, port))
    (hget : env.Get (world.requests ++ ["http://meta/v1/services/" ++ service]) = .ok resp)
    (hstatus : resp.StatusCode = StatusOK)
    (hdec : decodeEntries resp.Body = .ok entries) :
    (entries = [] →
      dialRaw env world network address =
        (.ret (.error ("couldn't dial service " ++ service ++ ": no healthy instances")),
          { world with requests := world.requests ++ ["http://meta/v1/services/" ++ service] }) ∧
      (dialRaw env world network address).2.dials = world.dials ∧
      (dialRaw env world network address).2.draws = world.draws) ∧
    (entries ≠ [] →
      ∃ entry, entry ∈ entries ∧
        env.Intn world.draws entries.length < entries.length ∧
        entries.get? (env.Intn world.draws entries.length) = some entry ∧
        dialRaw env world network address =
          (.ret (env.Dial (world.dials ++ [(network, entry)])),
            { world with
              requests := world.requests ++ ["http://meta/v1/services/" ++ service],
              draws := world.draws + 1,
              dials := world.dials ++ [(network, entry)] })) := by
  constructor
  · intro hnil
    subst hnil
    have hrun : dialRaw env world network address =
        (.ret (.error ("couldn't dial service " ++ service ++ ": no healthy instances")),
          { world with requests := world.requests ++ ["http://meta/v1/services/" ++ service] }) := by
      simp [dialRaw, hsplit, World.Get, hget, hstatus, hdec]
    rw [hrun]
    exact ⟨rfl, rfl, rfl⟩
  · intro hne
    have hpos : 0 < entries.length := List.length_pos.mpr hne
    have hlt := env.Intn_lt world.draws entries.length hpos
    have hlen : entries.length ≠ 0 := by omega
    refine ⟨entries.get ⟨env.Intn world.draws entries.length, hlt⟩, List.get_mem _ _ _, hlt,
      List.get?_eq_get hlt, ?_⟩
    simp [dialRaw, hsplit, World.Get, hget, hstatus, hdec, hlen, List.getElem?_eq_getElem hlt]

theorem dialRaw_picks_listed_entry_witness :
    (scriptedEnv [.ok entriesResponse]).SplitHostPort "svc:80" = .ok ("svc", "80") ∧
    (dialRaw (scriptedEnv [.ok entriesResponse]) World.init "tcp" "svc:80").2.dials =
      [("tcp", "a:1")] ∧
    (dialRaw (scriptedEnv [.ok emptyResponse]) World.init "tcp" "svc:80").2.dials = [] :=
  have h := dialRaw_picks_listed_entry (scriptedEnv [.ok entriesResponse]) World.init
    "tcp" "svc:80" "svc" "80" entriesResponse ["a:1", "b:2", "c:3"] rfl rfl rfl rfl
  have h' := dialRaw_picks_listed_entry (scriptedEnv [.ok emptyResponse]) World.init
    "tcp" "svc:80" "svc" "80" emptyResponse [] rfl rfl rfl rfl
  ⟨rfl,
    (h.2 (by decide)).elim (fun entry he => by
      rw [he.2.2.2]
      have hentry : entry = "a:1" := by
        have h3 := he.2.2.1
        have h0 : (scriptedEnv [.ok entriesResponse]).Intn World.init.draws
          (["a:1", "b:2", "c:3"] : List String).length = 0 := rfl
        rw [h0] at h3
        exact (Option.some.inj h3).symm
      rw [hentry]
      rfl),
    (h'.1 rfl).2.1⟩

end Meta
